import Mathlib

/-!
Verification of the session-orchestration core `src/server/game_manager.py`
(class `Manager`) against its natural-language specification.

The Python class is shallowly embedded: the `players`, `games` and `queues`
dictionaries become association lists (first match wins, which agrees with
Python dicts because a key is only ever inserted when absent), the
`itertools.count` id generator becomes a `Nat` counter, and each method
becomes a Lean function returning `Except GMError ...` (Python raises the
corresponding exception before performing any mutation on every error path
modelled with `.error`).  Outbound `webserver.send_message` calls are
collected in a returned list of `(socket, message)` pairs.  The per-session
tick thread `game_handler` is modelled by a list of tick outcomes (what the
embedded game's `main()` / `gameover` produced on each iteration), followed by
the `finally:` cleanup block.
-/

set_option maxHeartbeats 1000000

/-- Association-list lookup, first match wins (Python dict lookup). -/
def flookup {κ α : Type} [DecidableEq κ] : List (κ × α) → κ → Option α
  | [], _ => none
  | (k, v) :: rest, k' => if k = k' then some v else flookup rest k'

/-- Mutate the value stored at a key (Python dict item assignment on an
existing key); a no-op when the key is absent. -/
def fupdate {κ α : Type} [DecidableEq κ] (l : List (κ × α)) (k : κ) (f : α → α) :
    List (κ × α) :=
  l.map (fun kv => if kv.1 = k then (kv.1, f kv.2) else kv)

/-- Delete a key (Python `del d[k]`). -/
def ferase {κ α : Type} [DecidableEq κ] (l : List (κ × α)) (k : κ) : List (κ × α) :=
  l.filter (fun kv => kv.1 ≠ k)

/-- `deque.remove`: drop the first occurrence of an element. -/
def removeFirst : List Nat → Nat → List Nat
  | [], _ => []
  | x :: xs, c => if x = c then xs else x :: removeFirst xs c

/-- One lowercase hexadecimal digit, as `binascii.hexlify` writes it. -/
def hexDigit (n : Nat) : Char :=
  if n < 10 then Char.ofNat (48 + n) else Char.ofNat (87 + n)

/-- `binascii.hexlify` on a byte string: two lowercase hex digits per byte. -/
def hexlify (bs : List Nat) : String :=
  String.mk (bs.foldr (fun b acc => hexDigit (b / 16) :: hexDigit (b % 16) :: acc) [])

/-- The exception taxonomy of `server/exceptions.py` as used by the manager;
`KeyError` stands for Python's built-in KeyError raised by a failed dict
subscript (only possible in `send_event` when a recorded game id has no game,
which never happens in reachable states). -/
inductive GMError
  | ServerStopping
  | AlreadyRegistered
  | NotRegistered
  | InvalidQueue
  | InGame
  | NotInGame
  | InvalidEvent
  | KeyError
deriving DecidableEq, Repr

/-- One entry of `Manager.players`: the Python per-client dict with keys
`socket`, `alive`, `gameid`, `queue`, `token`.  The socket is an opaque
connection handle, modelled by a number. -/
structure Player where
  socket : Nat
  alive : Bool
  gameid : Option Nat
  queue : Option String
  token : String
deriving DecidableEq, Repr

/-- The embedded game object's observable state: its currently advertised
valid events (`get_events`) and its `gameover` flag.  Its other capabilities
(`kill`, `run_event`, startup status) are abstract functions in `Config`. -/
structure Game where
  events : List String
  gameover : Bool
deriving DecidableEq, Repr

/-- One entry of `Manager.games`: the game object plus the fixed roster that
was passed to the handler thread as its `players` argument. -/
structure GameEntry where
  game : Game
  roster : List Nat
deriving DecidableEq, Repr

/-- Messages delivered through `webserver.send_message`, by JSON shape:
the startup message, the per-tick status message
and the fault notification whose payload is the single-field object
with key "error" mapped to the description. -/
inductive Msg
  | startup (payload : String)
  | status (payload : String)
  | error (desc : String)
deriving DecidableEq, Repr

/-- Modelled from the spec: the configuration modules
`settings.game_settings` and `settings.server_settings` are not under `src/`.
`GAMES` is the set of configured queue names, each with a game-construction
function (the source's `gamefunc`/`initfunc` pair is collapsed into
`mkGame`); `PLAYERS_PER_GAME` is the configured batch size;
`TOKEN_LENGTH` is the configured token length.  The pluggable game object's
`kill`, `run_event` and `get_startup_status` capabilities are abstract
functions here. -/
structure Config where
  TOKEN_LENGTH : Nat
  PLAYERS_PER_GAME : Nat
  GAMES : List String
  mkGame : Nat → List Nat → Game
  startupPayload : Game → String
  killGame : Game → Nat → Game
  runEvent : Game → Nat → String → Game

/-- The orchestrator state: `players`, `games`, the id counter `gameid`
(`itertools.count(1)`), `queues`, and the one-way `running` flag. -/
structure Manager where
  players : List (Nat × Player)
  games : List (Nat × GameEntry)
  gameid : Nat
  queues : List (String × List Nat)
  running : Bool
deriving DecidableEq, Repr

/-- `Manager.__init__`: empty maps, id counter at 1, running. -/
def Manager.start : Manager :=
  { players := [], games := [], gameid := 1, queues := [], running := true }

/-- `Manager.connect`: the freshly drawn `os.urandom` bytes are passed in as
`randBytes` (randomness is an external oracle). -/
def Manager.connect (m : Manager) (cid : Nat) (sock : Nat) (randBytes : List Nat) :
    Except GMError (String × Manager) :=
  if m.running then
    match flookup m.players cid with
    | some _ => .error .AlreadyRegistered
    | none =>
      let tok := hexlify randBytes
      .ok (tok, { m with players :=
        m.players ++ [(cid, { socket := sock, alive := true, gameid := none,
                              queue := none, token := tok })] })
  else .error .ServerStopping

/-- `Manager.disconnect`. -/
def Manager.disconnect (cfg : Config) (m : Manager) (cid : Nat) :
    Except GMError Manager :=
  match flookup m.players cid with
  | none => .error .NotRegistered
  | some p =>
    let m1 : Manager :=
      match p.queue with
      | some q => { m with queues := fupdate m.queues q (fun l => removeFirst l cid) }
      | none => m
    match p.gameid with
    | none => .ok { m1 with players := ferase m1.players cid }
    | some gid =>
      if m1.running then
        .ok { m1 with
              games := fupdate m1.games gid
                (fun ge => { ge with game := cfg.killGame ge.game cid }),
              players := fupdate m1.players cid (fun pl => { pl with alive := false }) }
      else .ok { m1 with players := ferase m1.players cid }

/-- `Manager.start_game`: drain the first `PLAYERS_PER_GAME` entries of the
queue, construct the game, update every drained player and collect the
startup messages sent to the alive ones, then record the session. -/
def Manager.start_game (cfg : Config) (m : Manager) (q : String) :
    Manager × List (Nat × Msg) :=
  let gid := m.gameid
  let l := (flookup m.queues q).getD []
  let batch := l.take cfg.PLAYERS_PER_GAME
  let game := cfg.mkGame gid batch
  let m1 : Manager := { m with
    gameid := gid + 1,
    queues := fupdate m.queues q (fun l0 => l0.drop cfg.PLAYERS_PER_GAME) }
  let m2 := batch.foldl
    (fun acc pid =>
      { acc with players := fupdate acc.players pid
                              (fun pl => { pl with queue := none, gameid := some gid }) }) m1
  let msgs := batch.filterMap (fun pid =>
    match flookup m2.players pid with
    | some pl =>
      if pl.alive then some (pl.socket, Msg.startup (cfg.startupPayload game)) else none
    | none => none)
  ({ m2 with games := m2.games ++ [(gid, { game := game, roster := batch })] }, msgs)

/-- `Manager.join_queue`. -/
def Manager.join_queue (cfg : Config) (m : Manager) (cid : Nat) (q : String) :
    Except GMError (Manager × List (Nat × Msg)) :=
  if m.running then
    if q ∈ cfg.GAMES then
      match flookup m.players cid with
      | none => .error .NotRegistered
      | some p =>
        match p.gameid with
        | some _ => .error .InGame
        | none =>
          let m1 : Manager :=
            match p.queue with
            | some q0 =>
              { m with queues := fupdate m.queues q0 (fun l => removeFirst l cid) }
            | none => m
          let m2 : Manager :=
            { m1 with players := fupdate m1.players cid
                                   (fun pl => { pl with queue := some q }) }
          let m3 : Manager :=
            match flookup m2.queues q with
            | none => { m2 with queues := m2.queues ++ [(q, [])] }
            | some _ => m2
          let m4 : Manager :=
            { m3 with queues := fupdate m3.queues q (fun l => l ++ [cid]) }
          if cfg.PLAYERS_PER_GAME ≤ ((flookup m4.queues q).getD []).length then
            .ok (Manager.start_game cfg m4 q)
          else .ok (m4, [])
    else .error .InvalidQueue
  else .error .ServerStopping

/-- `Manager.send_event`. -/
def Manager.send_event (cfg : Config) (m : Manager) (cid : Nat) (ev : String) :
    Except GMError Manager :=
  match flookup m.players cid with
  | none => .error .NotRegistered
  | some p =>
    match p.gameid with
    | none => .error .NotInGame
    | some gid =>
      match flookup m.games gid with
      | none => .error .KeyError
      | some ge =>
        if ev ∈ ge.game.events then
          .ok { m with games := fupdate m.games gid
                                  (fun g => { g with game := cfg.runEvent g.game cid ev }) }
        else .error .InvalidEvent

/-- What one iteration of the tick loop observed: the fields of the status
dict returned by `game.main()` plus the game's `gameover` flag afterwards, or
an uncaught exception inside the iteration. -/
inductive TickOutcome
  | tick (didsmthhappen : Bool) (payload : String) (winner : Option Nat) (gameover : Bool)
  | fault (desc : String)
deriving DecidableEq, Repr

/-- Send a message to every roster member whose registry entry is alive
(the source's `if self.players[pid]["alive"]: send_message(...)`). -/
def aliveMsgs (m : Manager) (roster : List Nat) (msg : Msg) : List (Nat × Msg) :=
  roster.filterMap fun pid =>
    match flookup m.players pid with
    | some p => if p.alive then some (p.socket, msg) else none
    | none => none

/-- The messages the tick loop emits while consuming the tick outcomes:
the `while self.running` loop of `game_handler`, ending at game-over, at a
fault (which emits the error notification to every alive participant and
falls out of the loop), at a false `running` flag, or when the outcome list
is exhausted. -/
def tickLoop (m : Manager) (roster : List Nat) : List TickOutcome → List (Nat × Msg)
  | [] => []
  | o :: rest =>
    if m.running then
      match o with
      | .fault desc => aliveMsgs m roster (Msg.error desc)
      | .tick smth payload _ gover =>
        let msgs := if smth then aliveMsgs m roster (Msg.status payload) else []
        if gover then msgs else msgs ++ tickLoop m roster rest
    else []

/-- One iteration of the `finally:` block's per-participant loop: clear the
participant's `gameid`; if the participant is present and not alive, complete
the deferred removal through `Manager.disconnect`. -/
def cleanupStep (cfg : Config) (acc : Manager) (pid : Nat) : Manager :=
  let acc1 : Manager :=
    { acc with players := fupdate acc.players pid
                            (fun pl => { pl with gameid := none }) }
  match flookup acc1.players pid with
  | some pl =>
    if pl.alive then acc1
    else
      match Manager.disconnect cfg acc1 pid with
      | .ok m' => m'
      | .error _ => acc1
  | none => acc1

/-- The `finally:` block of `game_handler`: process every roster member, then
delete the session from the game table. -/
def Manager.game_cleanup (cfg : Config) (gid : Nat) (roster : List Nat) (m : Manager) :
    Manager :=
  let m1 := roster.foldl (cleanupStep cfg) m
  { m1 with games := ferase m1.games gid }

/-- `Manager.game_handler`: the tick loop's emitted messages together with the
state after the guaranteed cleanup (the `finally:` block runs whether the
loop ended by game-over, fault, or a false `running` flag). -/
def Manager.game_handler (cfg : Config) (gid : Nat) (roster : List Nat)
    (outs : List TickOutcome) (m : Manager) : Manager × List (Nat × Msg) :=
  (Manager.game_cleanup cfg gid roster m, tickLoop m roster outs)

/-- `Manager.safe_stop`: clear `running`, join every session's worker (in this
sequential model the worker's loop exits at once because `running` is false,
so joining it amounts to running its guaranteed cleanup), then disconnect
every still-registered player; exceptions from either phase are swallowed
(the `try`/`except` pairs), matching the source's best-effort sweep over
`self.games.copy()` and `self.players.copy()`.  `joinStep` is one iteration
of the sweep over `self.games.copy()`: joining a session's worker amounts to
running its guaranteed cleanup, since its loop exits at once under the
cleared flag. -/
def joinStep (cfg : Config) (acc : Manager) (gid : Nat) : Manager :=
  match flookup acc.games gid with
  | some ge => Manager.game_cleanup cfg gid ge.roster acc
  | none => acc

/-- One iteration of the shutdown sweep over `self.players.copy()`: a raising
`disconnect` is caught and logged, leaving the state as it was. -/
def kickStep (cfg : Config) (acc : Manager) (pid : Nat) : Manager :=
  match Manager.disconnect cfg acc pid with
  | .ok m2 => m2
  | .error _ => acc

def Manager.safe_stop (cfg : Config) (m : Manager) : Manager :=
  let m1 : Manager := { m with running := false }
  let m2 := (m1.games.map Prod.fst).foldl (joinStep cfg) m1
  (m2.players.map Prod.fst).foldl (kickStep cfg) m2

/-- States reachable from the initial manager by any sequence of successful
operations (a raising call leaves the Python state unchanged on every error
path, so error outcomes add no states); `handler` and `stop` steps may fire
at any time with any arguments, which only enlarges the reachable set. -/
inductive Reachable (cfg : Config) : Manager → Prop
  | start : Reachable cfg Manager.start
  | connect_ok {m cid sock bs tok m'} : Reachable cfg m →
      Manager.connect m cid sock bs = .ok (tok, m') → Reachable cfg m'
  | disconnect_ok {m cid m'} : Reachable cfg m →
      Manager.disconnect cfg m cid = .ok m' → Reachable cfg m'
  | join_ok {m cid q m' msgs} : Reachable cfg m →
      Manager.join_queue cfg m cid q = .ok (m', msgs) → Reachable cfg m'
  | send_ok {m cid ev m'} : Reachable cfg m →
      Manager.send_event cfg m cid ev = .ok m' → Reachable cfg m'
  | handler {m gid roster outs m' msgs} : Reachable cfg m →
      Manager.game_handler cfg gid roster outs m = (m', msgs) → Reachable cfg m'
  | stop {m} : Reachable cfg m → Reachable cfg (Manager.safe_stop cfg m)

/-- The data-model invariant of the spec: no player has both a queue and a
session recorded. -/
def StateInv (m : Manager) : Prop :=
  ∀ cid p, flookup m.players cid = some p → p.queue = none ∨ p.gameid = none


instance {ε α : Type} [DecidableEq ε] [DecidableEq α] : DecidableEq (Except ε α) :=
  fun a b =>
    match a, b with
    | .ok x, .ok y => if h : x = y then isTrue (by rw [h]) else isFalse (by simp [h])
    | .error x, .error y => if h : x = y then isTrue (by rw [h]) else isFalse (by simp [h])
    | .ok _, .error _ => isFalse (by simp)
    | .error _, .ok _ => isFalse (by simp)

/-- A concrete configuration for witness checks: one queue type of batch
size 2. -/
def cfg0 : Config :=
  { TOKEN_LENGTH := 8, PLAYERS_PER_GAME := 2, GAMES := ["duel"],
    mkGame := fun _ _ => { events := ["move"], gameover := false },
    startupPayload := fun _ => "sp",
    killGame := fun g _ => g,
    runEvent := fun g _ _ => g }

/-- A two-player fixture: player 1 waiting in the "duel" queue, player 2
registered and idle. -/
def mQueued : Manager :=
  { players := [(1, { socket := 10, alive := true, gameid := none,
                      queue := some "duel", token := "aa" }),
                (2, { socket := 20, alive := true, gameid := none,
                      queue := none, token := "bb" })],
    games := [], gameid := 1, queues := [("duel", [1])], running := true }

/-- Whether an iteration falls through to the next one: a non-faulting tick
whose game is not yet over. -/
def continuesLoop : TickOutcome → Bool
  | .tick _ _ _ gover => !gover
  | .fault _ => false

/-- A mid-session fixture: players 1 (still connected) and 2 (disconnected,
hence `alive := false`) inside game 1. -/
def mInGame : Manager :=
  { players := [(1, { socket := 10, alive := true, gameid := some 1,
                      queue := none, token := "aa" }),
                (2, { socket := 20, alive := false, gameid := some 1,
                      queue := none, token := "bb" })],
    games := [(1, { game := { events := ["move"], gameover := false },
                    roster := [1, 2] })],
    gameid := 2, queues := [], running := true }

/-- A two-queue configuration for witness checks, batch size 2. -/
def cfg1 : Config := { cfg0 with GAMES := ["duel", "solo"] }

/-- A fixture with one player waiting in each of two queues. -/
def mTwoQueues : Manager :=
  { players := [(1, { socket := 10, alive := true, gameid := none,
                      queue := some "duel", token := "aa" }),
                (2, { socket := 20, alive := true, gameid := none,
                      queue := some "solo", token := "bb" })],
    games := [], gameid := 1,
    queues := [("duel", [1]), ("solo", [2])], running := true }

/-! ### Association-list lemmas -/

@[simp]
theorem flookup_nil {κ α : Type} [DecidableEq κ] (k : κ) :
    flookup ([] : List (κ × α)) k = none := rfl

@[simp]
theorem flookup_cons {κ α : Type} [DecidableEq κ] (k0 : κ) (v0 : α)
    (rest : List (κ × α)) (k' : κ) :
    flookup ((k0, v0) :: rest) k' = if k0 = k' then some v0 else flookup rest k' := rfl

@[simp]
theorem fupdate_nil {κ α : Type} [DecidableEq κ] (k : κ) (f : α → α) :
    fupdate ([] : List (κ × α)) k f = [] := rfl

theorem fupdate_cons {κ α : Type} [DecidableEq κ] (k0 : κ) (v0 : α)
    (rest : List (κ × α)) (k : κ) (f : α → α) :
    fupdate ((k0, v0) :: rest) k f =
      (if k0 = k then (k0, f v0) else (k0, v0)) :: fupdate rest k f := by
  by_cases h : k0 = k <;> simp [fupdate, h]

@[simp]
theorem ferase_nil {κ α : Type} [DecidableEq κ] (k : κ) :
    ferase ([] : List (κ × α)) k = [] := rfl

theorem ferase_cons {κ α : Type} [DecidableEq κ] (k0 : κ) (v0 : α)
    (rest : List (κ × α)) (k : κ) :
    ferase ((k0, v0) :: rest) k =
      if k0 = k then ferase rest k else (k0, v0) :: ferase rest k := by
  by_cases h : k0 = k <;> simp [ferase, h]

theorem flookup_fupdate_self {κ α : Type} [DecidableEq κ] (l : List (κ × α)) (k : κ)
    (f : α → α) : flookup (fupdate l k f) k = (flookup l k).map f := by
  induction l with
  | nil => rfl
  | cons kv rest ih =>
    obtain ⟨k0, v0⟩ := kv
    rw [fupdate_cons]
    by_cases h : k0 = k
    · subst h
      simp
    · simp [h, ih]

theorem flookup_fupdate_ne {κ α : Type} [DecidableEq κ] (l : List (κ × α)) (k k' : κ)
    (f : α → α) (h : k' ≠ k) : flookup (fupdate l k f) k' = flookup l k' := by
  induction l with
  | nil => rfl
  | cons kv rest ih =>
    obtain ⟨k0, v0⟩ := kv
    rw [fupdate_cons]
    by_cases h0 : k0 = k
    · subst h0
      have h1 : k0 ≠ k' := fun hc => h (hc ▸ rfl)
      simp [h1, ih]
    · by_cases h1 : k0 = k'
      · subst h1
        simp [h0]
      · simp [h0, h1, ih]

theorem flookup_ferase_self {κ α : Type} [DecidableEq κ] (l : List (κ × α)) (k : κ) :
    flookup (ferase l k) k = none := by
  induction l with
  | nil => rfl
  | cons kv rest ih =>
    obtain ⟨k0, v0⟩ := kv
    rw [ferase_cons]
    by_cases h : k0 = k
    · simp [h, ih]
    · simp [h, ih]

theorem flookup_ferase_ne {κ α : Type} [DecidableEq κ] (l : List (κ × α)) (k k' : κ)
    (h : k' ≠ k) : flookup (ferase l k) k' = flookup l k' := by
  induction l with
  | nil => rfl
  | cons kv rest ih =>
    obtain ⟨k0, v0⟩ := kv
    rw [ferase_cons]
    by_cases h0 : k0 = k
    · subst h0
      have h1 : k0 ≠ k' := fun hc => h (hc ▸ rfl)
      simp [h1, ih]
    · by_cases h1 : k0 = k'
      · subst h1
        simp [h0, ih]
      · simp [h0, h1, ih]

theorem flookup_append_new {κ α : Type} [DecidableEq κ] (l : List (κ × α)) (k : κ)
    (v : α) (h : flookup l k = none) : flookup (l ++ [(k, v)]) k = some v := by
  induction l with
  | nil => simp
  | cons kv rest ih =>
    obtain ⟨k0, v0⟩ := kv
    by_cases h0 : k0 = k
    · simp [h0] at h
    · simp [h0] at h ⊢
      exact ih h

theorem flookup_append_ne {κ α : Type} [DecidableEq κ] (l : List (κ × α)) (k k' : κ)
    (v : α) (h : k' ≠ k) : flookup (l ++ [(k, v)]) k' = flookup l k' := by
  induction l with
  | nil =>
    have h1 : k ≠ k' := fun hc => h (hc ▸ rfl)
    simp [h1]
  | cons kv rest ih =>
    obtain ⟨k0, v0⟩ := kv
    by_cases h0 : k0 = k'
    · simp [h0]
    · simp [h0, ih]

theorem flookup_none_of_not_mem_keys {κ α : Type} [DecidableEq κ] (l : List (κ × α))
    (k : κ) (h : k ∉ l.map Prod.fst) : flookup l k = none := by
  induction l with
  | nil => rfl
  | cons kv rest ih =>
    obtain ⟨k0, v0⟩ := kv
    simp at h
    have h0 : k0 ≠ k := fun hc => h.1 hc.symm
    simp [h0]
    exact ih (by simpa using h.2)

theorem mem_keys_of_flookup_some {κ α : Type} [DecidableEq κ] (l : List (κ × α))
    (k : κ) (v : α) (h : flookup l k = some v) : k ∈ l.map Prod.fst := by
  induction l with
  | nil => simp at h
  | cons kv rest ih =>
    obtain ⟨k0, v0⟩ := kv
    by_cases h0 : k0 = k
    · subst h0
      simp
    · simp [h0] at h
      simp [ih h]

theorem keys_ferase_subset {κ α : Type} [DecidableEq κ] (l : List (κ × α)) (k k' : κ)
    (h : k' ∈ (ferase l k).map Prod.fst) : k' ∈ l.map Prod.fst ∧ k' ≠ k := by
  induction l with
  | nil => simp at h
  | cons kv rest ih =>
    obtain ⟨k0, v0⟩ := kv
    rw [ferase_cons] at h
    by_cases h0 : k0 = k
    · rw [if_pos h0] at h
      have := ih h
      exact ⟨by simp [this.1], this.2⟩
    · rw [if_neg h0, List.map_cons] at h
      rcases List.mem_cons.mp h with h | h
      · subst h
        exact ⟨by simp, fun hc => h0 hc⟩
      · have := ih h
        exact ⟨by simp [this.1], this.2⟩

theorem keys_fupdate {κ α : Type} [DecidableEq κ] (l : List (κ × α)) (k : κ)
    (f : α → α) : (fupdate l k f).map Prod.fst = l.map Prod.fst := by
  induction l with
  | nil => rfl
  | cons kv rest ih =>
    obtain ⟨k0, v0⟩ := kv
    rw [fupdate_cons]
    by_cases h : k0 = k <;> simp [h, ih]

theorem removeFirst_length (l : List Nat) (c : Nat) (h : c ∈ l) :
    (removeFirst l c).length + 1 = l.length := by
  induction l with
  | nil => simp at h
  | cons x xs ih =>
    by_cases h0 : x = c
    · simp [removeFirst, h0]
    · have hc : c ∈ xs := by
        rcases List.mem_cons.mp h with h1 | h1
        · exact absurd h1.symm h0
        · exact h1
      simp [removeFirst, h0]
      exact ih hc

theorem hexlify_length (bs : List Nat) : (hexlify bs).length = 2 * bs.length := by
  induction bs with
  | nil => rfl
  | cons b rest ih =>
    simp [hexlify, String.length] at ih ⊢
    omega

theorem flookup_append_single {κ α : Type} [DecidableEq κ] (l : List (κ × α))
    (k : κ) (v : α) (k' : κ) :
    flookup (l ++ [(k, v)]) k' =
      match flookup l k' with
      | some v' => some v'
      | none => if k = k' then some v else none := by
  induction l with
  | nil => simp
  | cons kv rest ih =>
    obtain ⟨k0, v0⟩ := kv
    by_cases h0 : k0 = k'
    · simp [h0]
    · simp [h0, ih]

theorem flookup_isSome_of_mem_keys {κ α : Type} [DecidableEq κ] (l : List (κ × α))
    (k : κ) (h : k ∈ l.map Prod.fst) : ∃ v, flookup l k = some v := by
  induction l with
  | nil => simp at h
  | cons kv rest ih =>
    obtain ⟨k0, v0⟩ := kv
    by_cases h0 : k0 = k
    · exact ⟨v0, by simp [h0]⟩
    · rw [List.map_cons] at h
      rcases List.mem_cons.mp h with h1 | h1
      · exact absurd h1.symm h0
      · obtain ⟨v, hv⟩ := ih h1
        exact ⟨v, by simp [h0, hv]⟩

theorem eq_nil_of_keys_empty {κ α : Type} [DecidableEq κ] (l : List (κ × α))
    (h : ∀ k, k ∈ l.map Prod.fst → False) : l = [] := by
  cases l with
  | nil => rfl
  | cons kv rest => exact absurd (by simp) (h kv.1)

/-- Generic preservation of a predicate along a left fold. -/
theorem foldl_preserves {σ β : Type} (P : σ → Prop) (f : σ → β → σ)
    (l : List β) (m : σ) (hf : ∀ acc b, P acc → P (f acc b)) (hm : P m) :
    P (l.foldl f m) := by
  induction l generalizing m with
  | nil => exact hm
  | cons b rest ih => exact ih (f m b) (hf m b hm)

theorem foldl_fupdate_lookup {κ α : Type} [DecidableEq κ] (batch : List κ)
    (f : α → α) (hf : ∀ v, f (f v) = f v) (l : List (κ × α)) (k : κ) :
    flookup (batch.foldl (fun acc b => fupdate acc b f) l) k =
      if k ∈ batch then (flookup l k).map f else flookup l k := by
  induction batch generalizing l with
  | nil => simp
  | cons b rest ih =>
    rw [List.foldl_cons, ih]
    by_cases hb : k = b
    · subst hb
      by_cases hr : k ∈ rest
      · simp [hr, flookup_fupdate_self]
        cases flookup l k <;> simp [hf]
      · simp [hr, flookup_fupdate_self]
    · by_cases hr : k ∈ rest
      · simp [hr, hb, flookup_fupdate_ne l b k f hb]
      · simp [hr, hb, flookup_fupdate_ne l b k f hb]

/-- The per-player update loop of `start_game` only touches the `players`
component. -/
theorem start_fold_components (batch : List Nat) (f : Player → Player) (m : Manager) :
    (batch.foldl (fun acc pid =>
        { acc with players := fupdate acc.players pid f }) m) =
      { m with players := batch.foldl (fun pl pid => fupdate pl pid f) m.players } := by
  induction batch generalizing m with
  | nil => rfl
  | cons b rest ih =>
    rw [List.foldl_cons, ih]
    rfl

/-! ### Characterizations of `disconnect` -/

theorem disconnect_not_registered (cfg : Config) (m : Manager) (cid : Nat)
    (h : flookup m.players cid = none) :
    Manager.disconnect cfg m cid = .error .NotRegistered := by
  unfold Manager.disconnect
  rw [h]

theorem disconnect_delete (cfg : Config) (m : Manager) (cid : Nat) (p : Player)
    (hp : flookup m.players cid = some p) (hg : p.gameid = none) :
    Manager.disconnect cfg m cid = .ok
      { players := ferase m.players cid,
        games := m.games,
        gameid := m.gameid,
        queues := match p.queue with
          | some q => fupdate m.queues q (fun l => removeFirst l cid)
          | none => m.queues,
        running := m.running } := by
  unfold Manager.disconnect
  rw [hp]
  cases hq : p.queue <;> simp [hq, hg]

theorem disconnect_delete_stopped (cfg : Config) (m : Manager) (cid : Nat) (p : Player)
    (hp : flookup m.players cid = some p) (hrun : m.running = false) :
    Manager.disconnect cfg m cid = .ok
      { players := ferase m.players cid,
        games := m.games,
        gameid := m.gameid,
        queues := match p.queue with
          | some q => fupdate m.queues q (fun l => removeFirst l cid)
          | none => m.queues,
        running := m.running } := by
  unfold Manager.disconnect
  rw [hp]
  cases hg : p.gameid <;> cases hq : p.queue <;> simp [hq, hg, hrun]

theorem disconnect_kill (cfg : Config) (m : Manager) (cid : Nat) (p : Player)
    (gid : Nat) (hp : flookup m.players cid = some p) (hg : p.gameid = some gid)
    (hrun : m.running = true) :
    Manager.disconnect cfg m cid = .ok
      { players := fupdate m.players cid (fun pl => { pl with alive := false }),
        games := fupdate m.games gid (fun ge => { ge with game := cfg.killGame ge.game cid }),
        gameid := m.gameid,
        queues := match p.queue with
          | some q => fupdate m.queues q (fun l => removeFirst l cid)
          | none => m.queues,
        running := m.running } := by
  unfold Manager.disconnect
  rw [hp]
  cases hq : p.queue <;> simp [hq, hg, hrun]

/-- C3: `disconnect(identity)` fails with `NotRegistered` when the identity is
absent; otherwise, if the player is in a queue it is removed from that queue
first; then, if the player has no session or the manager is stopping, the
player is deleted from the registry outright; otherwise the player is only
marked `alive=false`, the owning game is asked to eliminate (kill) that
participant, and the registry entry survives. -/
theorem disconnect_spec (cfg : Config) (m : Manager) (cid : Nat) :
    (flookup m.players cid = none →
      Manager.disconnect cfg m cid = .error .NotRegistered) ∧
    (∀ p, flookup m.players cid = some p →
      (p.gameid = none ∨ m.running = false →
        Manager.disconnect cfg m cid = .ok
          { players := ferase m.players cid,
            games := m.games,
            gameid := m.gameid,
            queues := match p.queue with
              | some q => fupdate m.queues q (fun l => removeFirst l cid)
              | none => m.queues,
            running := m.running }) ∧
      (∀ gid, p.gameid = some gid → m.running = true →
        ∃ m', Manager.disconnect cfg m cid = .ok m' ∧
          m' = { players := fupdate m.players cid (fun pl => { pl with alive := false }),
                 games := fupdate m.games gid
                   (fun ge => { ge with game := cfg.killGame ge.game cid }),
                 gameid := m.gameid,
                 queues := match p.queue with
                   | some q => fupdate m.queues q (fun l => removeFirst l cid)
                   | none => m.queues,
                 running := m.running } ∧
          flookup m'.players cid = some { p with alive := false })) := by
  refine ⟨disconnect_not_registered cfg m cid, fun p hp => ⟨fun hcase => ?_, ?_⟩⟩
  · rcases hcase with hg | hrun
    · exact disconnect_delete cfg m cid p hp hg
    · exact disconnect_delete_stopped cfg m cid p hp hrun
  · intro gid hg hrun
    refine ⟨_, disconnect_kill cfg m cid p gid hp hg hrun, rfl, ?_⟩
    simp [flookup_fupdate_self, hp]

/-- C3 witness: a concrete registered player with no session is deleted
outright. -/
theorem disconnect_spec_witness :
    Manager.disconnect
      { TOKEN_LENGTH := 8, PLAYERS_PER_GAME := 2, GAMES := ["duel"],
        mkGame := fun _ _ => { events := ["move"], gameover := false },
        startupPayload := fun _ => "sp",
        killGame := fun g _ => g,
        runEvent := fun g _ _ => g }
      { players := [(1, { socket := 10, alive := true, gameid := none,
                          queue := none, token := "aa" })],
        games := [], gameid := 1, queues := [], running := true } 1 =
      .ok { players := [], games := [], gameid := 1, queues := [], running := true } := by
  have h := (disconnect_spec
    { TOKEN_LENGTH := 8, PLAYERS_PER_GAME := 2, GAMES := ["duel"],
      mkGame := fun _ _ => { events := ["move"], gameover := false },
      startupPayload := fun _ => "sp",
      killGame := fun g _ => g,
      runEvent := fun g _ _ => g }
    { players := [(1, { socket := 10, alive := true, gameid := none,
                        queue := none, token := "aa" })],
      games := [], gameid := 1, queues := [], running := true } 1).2
    { socket := 10, alive := true, gameid := none, queue := none, token := "aa" }
    (by decide) |>.1 (Or.inl rfl)
  rw [h]
  rfl

/-- C6: `connect` fails with `ServerStopping` when `running` is false, with
`AlreadyRegistered` when the identity is already present (and the server is
running, since the stopping check comes first in the source); on success it
adds a player with `alive=true`, no queue, no session, and the token
generated from the fresh random bytes, returns that token, and leaves every
other player, the games, the queues, the id counter and the run flag
unchanged. -/
theorem connect_spec (m : Manager) (cid sock : Nat) (bs : List Nat) :
    (m.running = false → Manager.connect m cid sock bs = .error .ServerStopping) ∧
    (m.running = true → ∀ p0, flookup m.players cid = some p0 →
      Manager.connect m cid sock bs = .error .AlreadyRegistered) ∧
    (m.running = true → flookup m.players cid = none →
      ∃ m', Manager.connect m cid sock bs = .ok (hexlify bs, m') ∧
        flookup m'.players cid = some { socket := sock, alive := true, gameid := none,
                                        queue := none, token := hexlify bs } ∧
        (∀ cid', cid' ≠ cid → flookup m'.players cid' = flookup m.players cid') ∧
        m'.games = m.games ∧ m'.queues = m.queues ∧ m'.gameid = m.gameid ∧
        m'.running = m.running) := by
  refine ⟨fun hrun => ?_, fun hrun p0 hp => ?_, fun hrun hp => ?_⟩
  · simp [Manager.connect, hrun]
  · simp [Manager.connect, hrun, hp]
  · refine ⟨{ m with players := m.players ++
        [(cid, { socket := sock, alive := true, gameid := none,
                 queue := none, token := hexlify bs })] }, ?_, ?_, ?_, rfl, rfl, rfl, ?_⟩
    · simp [Manager.connect, hrun, hp]
    · exact flookup_append_new m.players cid _ hp
    · intro cid' hne
      exact flookup_append_ne m.players cid cid' _ hne
    · simp [hrun]

/-- C6 witness: connecting a fresh identity on the initial manager. -/
theorem connect_spec_witness :
    ∃ m', Manager.connect Manager.start 1 10 [222, 173, 190, 239] =
        .ok (hexlify [222, 173, 190, 239], m') ∧
      flookup m'.players 1 = some { socket := 10, alive := true, gameid := none,
                                    queue := none, token := hexlify [222, 173, 190, 239] } ∧
      (∀ cid', cid' ≠ 1 → flookup m'.players cid' = flookup Manager.start.players cid') ∧
      m'.games = Manager.start.games ∧ m'.queues = Manager.start.queues ∧
      m'.gameid = Manager.start.gameid ∧ m'.running = Manager.start.running :=
  (connect_spec Manager.start 1 10 [222, 173, 190, 239]).2.2 (by decide) (by decide)

/-- C7: every token returned by a successful `connect` has the same fixed
length: with `urandom` contributing `TOKEN_LENGTH / 2` bytes (integer
division, as `int(TOKEN_LENGTH / 2)` computes for the nonnegative setting)
and `hexlify` writing two digits per byte, the token length is exactly the
configured `TOKEN_LENGTH` whenever `TOKEN_LENGTH` is even.  The entropy of
the source (`os.urandom`) is outside the embedding; the bytes enter as an
oracle argument. -/
theorem connect_token_length (cfg : Config) (m : Manager) (cid sock : Nat)
    (bs : List Nat) (tok : String) (m' : Manager)
    (hbs : bs.length = cfg.TOKEN_LENGTH / 2)
    (heven : cfg.TOKEN_LENGTH % 2 = 0)
    (hok : Manager.connect m cid sock bs = .ok (tok, m')) :
    tok.length = cfg.TOKEN_LENGTH := by
  have htok : tok = hexlify bs := by
    unfold Manager.connect at hok
    by_cases hrun : m.running
    · rw [if_pos hrun] at hok
      cases hl : flookup m.players cid <;> rw [hl] at hok
      · simp at hok
        exact hok.1.symm
      · simp at hok
    · rw [if_neg hrun] at hok
      simp at hok
  rw [htok, hexlify_length, hbs]
  omega

/-- C7 witness: a concrete 4-byte draw yields an 8-character token. -/
theorem connect_token_length_witness : ("01020304" : String).length = 8 :=
  connect_token_length cfg0 Manager.start 1 10 [1, 2, 3, 4] "01020304"
    { players := [(1, { socket := 10, alive := true, gameid := none,
                        queue := none, token := "01020304" })],
      games := [], gameid := 1, queues := [], running := true }
    (by decide) (by decide) (by decide)

/-- C8: `send_event` fails with `NotRegistered` for an unknown identity, with
`NotInGame` when the player has no session, and with `InvalidEvent` when the
event name is not among the game's currently advertised valid events; every
failure is raised before any mutation (the returned error carries no new
state, and in the source the raise precedes any assignment and the game's
handler call), and on success only the addressed game is updated through its
named-event handler, with players, queues, the other games, the id counter
and the run flag untouched. -/
theorem send_event_spec (cfg : Config) (m : Manager) (cid : Nat) (ev : String) :
    (flookup m.players cid = none →
      Manager.send_event cfg m cid ev = .error .NotRegistered) ∧
    (∀ p, flookup m.players cid = some p → p.gameid = none →
      Manager.send_event cfg m cid ev = .error .NotInGame) ∧
    (∀ p gid ge, flookup m.players cid = some p → p.gameid = some gid →
      flookup m.games gid = some ge → ev ∉ ge.game.events →
      Manager.send_event cfg m cid ev = .error .InvalidEvent) ∧
    (∀ p gid ge, flookup m.players cid = some p → p.gameid = some gid →
      flookup m.games gid = some ge → ev ∈ ge.game.events →
      ∃ m', Manager.send_event cfg m cid ev = .ok m' ∧
        m'.players = m.players ∧ m'.queues = m.queues ∧ m'.gameid = m.gameid ∧
        m'.running = m.running ∧
        m'.games = fupdate m.games gid
          (fun g => { g with game := cfg.runEvent g.game cid ev }) ∧
        (∀ gid', gid' ≠ gid → flookup m'.games gid' = flookup m.games gid')) := by
  refine ⟨fun hp => ?_, fun p hp hg => ?_, fun p gid ge hp hg hge hev => ?_,
          fun p gid ge hp hg hge hev => ?_⟩
  · simp [Manager.send_event, hp]
  · simp [Manager.send_event, hp, hg]
  · simp [Manager.send_event, hp, hg, hge, hev]
  · refine ⟨{ m with games := fupdate m.games gid
                               (fun g => { g with game := cfg.runEvent g.game cid ev }) },
      ?_, rfl, rfl, rfl, rfl, rfl, ?_⟩
    · simp [Manager.send_event, hp, hg, hge, hev]
    · intro gid' hne
      exact flookup_fupdate_ne m.games gid gid'
        (fun g => { g with game := cfg.runEvent g.game cid ev }) hne

/-- C8 witness: a registered, in-game player firing an unknown event name gets
`InvalidEvent`. -/
theorem send_event_spec_witness :
    Manager.send_event cfg0
      { players := [(1, { socket := 10, alive := true, gameid := some 1,
                          queue := none, token := "aa" })],
        games := [(1, { game := { events := ["move"], gameover := false },
                        roster := [1, 2] })],
        gameid := 2, queues := [], running := true } 1 "cheat" =
      .error .InvalidEvent :=
  (send_event_spec cfg0
    { players := [(1, { socket := 10, alive := true, gameid := some 1,
                        queue := none, token := "aa" })],
      games := [(1, { game := { events := ["move"], gameover := false },
                      roster := [1, 2] })],
      gameid := 2, queues := [], running := true } 1 "cheat").2.2.1
    { socket := 10, alive := true, gameid := some 1, queue := none, token := "aa" }
    1 { game := { events := ["move"], gameover := false }, roster := [1, 2] }
    (by decide) (by decide) (by decide) (by decide)

/-! ### Queue admission and draining -/

theorem start_game_spec (cfg : Config) (m : Manager) (q : String) (l : List Nat)
    (hl : flookup m.queues q = some l)
    (hlen : l.length = cfg.PLAYERS_PER_GAME) :
    (Manager.start_game cfg m q).1.players =
        l.foldl (fun pl pid => fupdate pl pid
          (fun p0 => { p0 with queue := none, gameid := some m.gameid })) m.players ∧
    (Manager.start_game cfg m q).1.games =
        m.games ++ [(m.gameid, { game := cfg.mkGame m.gameid l, roster := l })] ∧
    (Manager.start_game cfg m q).1.gameid = m.gameid + 1 ∧
    (Manager.start_game cfg m q).1.queues =
        fupdate m.queues q (fun l0 => l0.drop cfg.PLAYERS_PER_GAME) ∧
    (Manager.start_game cfg m q).1.running = m.running := by
  have htake : l.take cfg.PLAYERS_PER_GAME = l := by
    rw [← hlen]
    exact List.take_length l
  refine ⟨?_, ?_, ?_, ?_, ?_⟩ <;>
    simp only [Manager.start_game, hl, Option.getD_some, htake, start_fold_components]

theorem start_game_drain_tail (cfg : Config) (m : Manager) (cid : Nat) (q : String)
    (p : Player) (l : List Nat) (Q : List (String × List Nat))
    (hp : flookup m.players cid = some p)
    (hQ : flookup Q q = some (l ++ [cid]))
    (hlen2 : (l ++ [cid]).length = cfg.PLAYERS_PER_GAME) :
    flookup (Manager.start_game cfg
      { m with players := fupdate m.players cid (fun pl => { pl with queue := some q }),
               queues := Q } q).1.queues q = some [] ∧
    (Manager.start_game cfg
      { m with players := fupdate m.players cid (fun pl => { pl with queue := some q }),
               queues := Q } q).1.games = m.games ++
      [(m.gameid, { game := cfg.mkGame m.gameid (l ++ [cid]), roster := l ++ [cid] })] ∧
    (Manager.start_game cfg
      { m with players := fupdate m.players cid (fun pl => { pl with queue := some q }),
               queues := Q } q).1.gameid = m.gameid + 1 ∧
    (∀ pid, pid ∈ l ++ [cid] → ∀ pl0, flookup m.players pid = some pl0 →
      flookup (Manager.start_game cfg
        { m with players := fupdate m.players cid (fun pl => { pl with queue := some q }),
                 queues := Q } q).1.players pid =
        some { pl0 with queue := none, gameid := some m.gameid }) := by
  obtain ⟨hpl, hgms, hgid, hqs, -⟩ := start_game_spec cfg
    { m with players := fupdate m.players cid (fun pl => { pl with queue := some q }),
             queues := Q } q (l ++ [cid]) hQ hlen2
  refine ⟨?_, hgms, hgid, ?_⟩
  · rw [hqs, flookup_fupdate_self, hQ]
    have hdrop : (l ++ [cid]).drop cfg.PLAYERS_PER_GAME = [] := by
      rw [← hlen2]
      exact List.drop_length _
    simp [hdrop]
  · intro pid hmem pl0 hpl0
    rw [hpl]
    rw [foldl_fupdate_lookup (l ++ [cid])
      (fun p0 => { p0 with queue := none, gameid := some m.gameid })
      (fun v => rfl)
      (fupdate m.players cid (fun pl => { pl with queue := some q })) pid]
    rw [if_pos hmem]
    by_cases hpc : pid = cid
    · subst hpc
      rw [flookup_fupdate_self, hp]
      have hpp : pl0 = p := by
        rw [hp] at hpl0
        exact (Option.some.inj hpl0).symm
      subst hpp
      rfl
    · rw [flookup_fupdate_ne _ _ _ _ hpc, hpl0]
      rfl

/-- C1: a join that makes the queue's length reach the configured batch size
drains the queue atomically, whether the joiner was in no queue or waiting in
a different queue (a same-queue rejoin removes before re-appending and so
never increases the length): the batch is exactly the previous queue contents
followed by the joining player (FIFO join order), exactly one session is
recorded with exactly those players as its roster and game construction
input, every batch member's registry entry now points at the new session,
and the queue is empty afterward. -/
theorem join_queue_drains (cfg : Config) (m : Manager) (cid : Nat) (q : String)
    (p : Player) (l : List Nat)
    (hrun : m.running = true) (hq : q ∈ cfg.GAMES)
    (hp : flookup m.players cid = some p) (hg : p.gameid = none)
    (hnq : p.queue ≠ some q)
    (hl : flookup m.queues q = some l)
    (hlen : l.length + 1 = cfg.PLAYERS_PER_GAME) :
    ∃ m' msgs, Manager.join_queue cfg m cid q = .ok (m', msgs) ∧
      flookup m'.queues q = some [] ∧
      m'.games = m.games ++
        [(m.gameid, { game := cfg.mkGame m.gameid (l ++ [cid]), roster := l ++ [cid] })] ∧
      m'.gameid = m.gameid + 1 ∧
      (∀ pid, pid ∈ l ++ [cid] → ∀ pl0, flookup m.players pid = some pl0 →
        flookup m'.players pid =
          some { pl0 with queue := none, gameid := some m.gameid }) := by
  have hlen2 : (l ++ [cid]).length = cfg.PLAYERS_PER_GAME := by
    simp
    omega
  cases hpq : p.queue with
  | none =>
    have hq4 : flookup (fupdate m.queues q (fun l0 => l0 ++ [cid])) q =
        some (l ++ [cid]) := by
      rw [flookup_fupdate_self, hl]
      rfl
    have hjoin : Manager.join_queue cfg m cid q = .ok (Manager.start_game cfg
        { m with players := fupdate m.players cid (fun pl => { pl with queue := some q }),
                 queues := fupdate m.queues q (fun l0 => l0 ++ [cid]) } q) := by
      unfold Manager.join_queue
      simp only [hrun, hq, hp, hg, hpq, if_true, hl, hq4, hlen2, Option.getD_some, le_refl]
    obtain ⟨t1, t2, t3, t4⟩ := start_game_drain_tail cfg m cid q p l
      (fupdate m.queues q (fun l0 => l0 ++ [cid])) hp hq4 hlen2
    exact ⟨_, _, hjoin, t1, t2, t3, t4⟩
  | some q0 =>
    have hq0 : q ≠ q0 := by
      intro hc
      exact hnq (by rw [hpq, hc])
    have hl1 : flookup (fupdate m.queues q0 (fun l0 => removeFirst l0 cid)) q =
        some l := by
      rw [flookup_fupdate_ne _ _ _ _ hq0]
      exact hl
    have hq4 : flookup (fupdate (fupdate m.queues q0 (fun l0 => removeFirst l0 cid)) q
        (fun l0 => l0 ++ [cid])) q = some (l ++ [cid]) := by
      rw [flookup_fupdate_self, hl1]
      rfl
    have hjoin : Manager.join_queue cfg m cid q = .ok (Manager.start_game cfg
        { m with players := fupdate m.players cid (fun pl => { pl with queue := some q }),
                 queues := fupdate (fupdate m.queues q0 (fun l0 => removeFirst l0 cid)) q
                             (fun l0 => l0 ++ [cid]) } q) := by
      unfold Manager.join_queue
      simp only [hrun, hq, hp, hg, hpq, if_true, hl1, hq4, hlen2, Option.getD_some, le_refl]
    obtain ⟨t1, t2, t3, t4⟩ := start_game_drain_tail cfg m cid q p l
      (fupdate (fupdate m.queues q0 (fun l0 => removeFirst l0 cid)) q
        (fun l0 => l0 ++ [cid])) hp hq4 hlen2
    exact ⟨_, _, hjoin, t1, t2, t3, t4⟩

/-- C1 witness: player 2, waiting in the "solo" queue, joins the batch-size-2
"duel" queue; the drain-triggering join starts exactly one session with
roster [1, 2] and empties the queue. -/
theorem join_queue_drains_witness :
    ∃ m' msgs, Manager.join_queue cfg1 mTwoQueues 2 "duel" = .ok (m', msgs) ∧
      flookup m'.queues "duel" = some [] ∧
      m'.games = mTwoQueues.games ++
        [(mTwoQueues.gameid, { game := cfg1.mkGame mTwoQueues.gameid ([1] ++ [2]),
                               roster := [1] ++ [2] })] ∧
      m'.gameid = mTwoQueues.gameid + 1 ∧
      (∀ pid, pid ∈ [1] ++ [2] → ∀ pl0, flookup mTwoQueues.players pid = some pl0 →
        flookup m'.players pid =
          some { pl0 with queue := none, gameid := some mTwoQueues.gameid }) :=
  join_queue_drains cfg1 mTwoQueues 2 "duel"
    { socket := 20, alive := true, gameid := none, queue := some "solo", token := "bb" }
    [1] (by decide) (by decide) (by decide) (by decide) (by decide) (by decide)
    (by decide)

/-- C10: a player already waiting in queue `q` who joins `q` again succeeds
and is removed then re-appended, landing at the tail of `q` with the queue's
length unchanged, and no session is started. -/
theorem join_queue_rejoin (cfg : Config) (m : Manager) (cid : Nat) (q : String)
    (p : Player) (l : List Nat)
    (hrun : m.running = true) (hq : q ∈ cfg.GAMES)
    (hp : flookup m.players cid = some p) (hg : p.gameid = none)
    (hpq : p.queue = some q)
    (hl : flookup m.queues q = some l) (hmem : cid ∈ l)
    (hlt : l.length < cfg.PLAYERS_PER_GAME) :
    ∃ m', Manager.join_queue cfg m cid q = .ok (m', []) ∧
      flookup m'.queues q = some (removeFirst l cid ++ [cid]) ∧
      (removeFirst l cid ++ [cid]).length = l.length ∧
      m'.games = m.games ∧ m'.gameid = m.gameid ∧
      m'.players = fupdate m.players cid (fun pl => { pl with queue := some q }) := by
  have hrem : flookup (fupdate m.queues q (fun l0 => removeFirst l0 cid)) q =
      some (removeFirst l cid) := by
    rw [flookup_fupdate_self, hl]
    rfl
  have happ : flookup (fupdate (fupdate m.queues q (fun l0 => removeFirst l0 cid)) q
      (fun l0 => l0 ++ [cid])) q = some (removeFirst l cid ++ [cid]) := by
    rw [flookup_fupdate_self, hrem]
    rfl
  have hlen : (removeFirst l cid ++ [cid]).length = l.length := by
    have := removeFirst_length l cid hmem
    simp
    omega
  have hnodrain : ¬ cfg.PLAYERS_PER_GAME ≤ (removeFirst l cid ++ [cid]).length := by
    rw [hlen]
    omega
  refine ⟨{ m with
      players := fupdate m.players cid (fun pl => { pl with queue := some q }),
      queues := fupdate (fupdate m.queues q (fun l0 => removeFirst l0 cid)) q
                  (fun l0 => l0 ++ [cid]) }, ?_, happ, hlen, rfl, rfl, rfl⟩
  unfold Manager.join_queue
  simp only [hrun, hq, hp, hg, hpq, if_true, hrem, happ, Option.getD_some, hnodrain,
    if_false]

/-! ### Tick loop, fault handling and session cleanup -/

theorem mem_aliveMsgs (m : Manager) (roster : List Nat) (msg : Msg) (pid : Nat)
    (p : Player) (hmem : pid ∈ roster) (hp : flookup m.players pid = some p)
    (ha : p.alive = true) : (p.socket, msg) ∈ aliveMsgs m roster msg := by
  unfold aliveMsgs
  rw [List.mem_filterMap]
  exact ⟨pid, hmem, by rw [hp]; simp [ha]⟩

theorem tickLoop_fault (m : Manager) (roster : List Nat) (pre : List TickOutcome)
    (desc : String) (rest : List TickOutcome)
    (hrun : m.running = true) (hpre : ∀ o ∈ pre, continuesLoop o = true) :
    ∃ preMsgs, tickLoop m roster (pre ++ TickOutcome.fault desc :: rest) =
      preMsgs ++ aliveMsgs m roster (Msg.error desc) := by
  induction pre with
  | nil =>
    refine ⟨[], ?_⟩
    simp [tickLoop, hrun]
  | cons o pre' ih =>
    obtain ⟨preMsgs, hpm⟩ := ih (fun o' ho' => hpre o' (List.mem_cons_of_mem o ho'))
    cases o with
    | fault d0 =>
      exact absurd (hpre _ (List.mem_cons_self _ _)) (by simp [continuesLoop])
    | tick smth payload w gover =>
      have hgo : gover = false := by
        have := hpre _ (List.mem_cons_self (TickOutcome.tick smth payload w gover) pre')
        simpa [continuesLoop] using this
      subst hgo
      refine ⟨(if smth then aliveMsgs m roster (Msg.status payload) else []) ++ preMsgs, ?_⟩
      rw [List.cons_append]
      show (if m.running then _ else []) = _
      rw [if_pos hrun]
      simp only [tickLoop]
      rw [hpm]
      simp

/-- C9: an uncaught failure during a tick is fatal only to that session: the
error notification with the failure description is delivered to every
participant whose `alive` flag is true, the loop exits (no outcome after the
fault contributes), and the guaranteed-cleanup block still runs, leaving the
session removed from the session table. -/
theorem game_handler_fault (cfg : Config) (gid : Nat) (roster : List Nat)
    (pre : List TickOutcome) (desc : String) (rest : List TickOutcome)
    (m m' : Manager) (msgs : List (Nat × Msg))
    (hrun : m.running = true)
    (hpre : ∀ o ∈ pre, continuesLoop o = true)
    (hh : Manager.game_handler cfg gid roster (pre ++ TickOutcome.fault desc :: rest) m =
      (m', msgs)) :
    (∀ pid p, pid ∈ roster → flookup m.players pid = some p → p.alive = true →
      (p.socket, Msg.error desc) ∈ msgs) ∧
    m' = Manager.game_cleanup cfg gid roster m ∧
    flookup m'.games gid = none := by
  obtain ⟨preMsgs, hpm⟩ := tickLoop_fault m roster pre desc rest hrun hpre
  have hpair : m' = Manager.game_cleanup cfg gid roster m ∧
      msgs = tickLoop m roster (pre ++ TickOutcome.fault desc :: rest) := by
    unfold Manager.game_handler at hh
    exact ⟨(Prod.mk.injEq _ _ _ _ ▸ hh).1.symm, (Prod.mk.injEq _ _ _ _ ▸ hh).2.symm⟩
  obtain ⟨hm', hmsgs⟩ := hpair
  refine ⟨?_, hm', ?_⟩
  · intro pid p hmem hp ha
    rw [hmsgs, hpm]
    exact List.mem_append_right _ (mem_aliveMsgs m roster (Msg.error desc) pid p hmem hp ha)
  · rw [hm']
    unfold Manager.game_cleanup
    exact flookup_ferase_self _ gid

/-- C9 witness: a single faulting tick in a concrete two-player session
notifies the alive participant and still removes the session. -/
theorem game_handler_fault_witness :
    (∀ pid p, pid ∈ [1, 2] → flookup mInGame.players pid = some p → p.alive = true →
      (p.socket, Msg.error "boom") ∈
        (Manager.game_handler cfg0 1 [1, 2] [TickOutcome.fault "boom"] mInGame).2) ∧
    (Manager.game_handler cfg0 1 [1, 2] [TickOutcome.fault "boom"] mInGame).1 =
      Manager.game_cleanup cfg0 1 [1, 2] mInGame ∧
    flookup (Manager.game_handler cfg0 1 [1, 2]
      [TickOutcome.fault "boom"] mInGame).1.games 1 = none :=
  game_handler_fault cfg0 1 [1, 2] [] "boom" [] mInGame
    (Manager.game_handler cfg0 1 [1, 2] [TickOutcome.fault "boom"] mInGame).1
    (Manager.game_handler cfg0 1 [1, 2] [TickOutcome.fault "boom"] mInGame).2
    (by decide) (by intro o ho; simp at ho) rfl

theorem cleanupStep_spec (cfg : Config) (acc : Manager) (pid : Nat) :
    (cleanupStep cfg acc pid).games = acc.games ∧
    (cleanupStep cfg acc pid).running = acc.running ∧
    (cleanupStep cfg acc pid).gameid = acc.gameid ∧
    (flookup (cleanupStep cfg acc pid).players pid =
      (match flookup acc.players pid with
       | none => none
       | some p0 => if p0.alive then some { p0 with gameid := none } else none)) ∧
    (∀ pid', pid' ≠ pid →
      flookup (cleanupStep cfg acc pid).players pid' = flookup acc.players pid') := by
  simp only [cleanupStep]
  rw [flookup_fupdate_self]
  cases h0 : flookup acc.players pid with
  | none =>
    simp only [Option.map_none']
    refine ⟨trivial, trivial, trivial, ?_, ?_⟩
    · rw [flookup_fupdate_self, h0]
      rfl
    · intro pid' hne
      exact flookup_fupdate_ne acc.players pid pid' _ hne
  | some p0 =>
    simp only [Option.map_some']
    by_cases ha : p0.alive
    · simp only [ha, if_true]
      refine ⟨trivial, trivial, trivial, ?_, ?_⟩
      · rw [flookup_fupdate_self, h0]
        simp [ha]
      · intro pid' hne
        exact flookup_fupdate_ne acc.players pid pid' _ hne
    · have hdis := disconnect_delete cfg
        { acc with players := fupdate acc.players pid
                                (fun pl => { pl with gameid := none }) }
        pid { p0 with gameid := none }
        (by rw [flookup_fupdate_self, h0]; rfl) rfl
      simp only [ha, if_false, Bool.false_eq_true, hdis]
      refine ⟨trivial, trivial, trivial, ?_, ?_⟩
      · rw [flookup_ferase_self]
      · intro pid' hne
        rw [flookup_ferase_ne _ _ _ hne]
        exact flookup_fupdate_ne acc.players pid pid' _ hne

theorem cleanup_fold_notmem (cfg : Config) (roster : List Nat) (m : Manager)
    (pid : Nat) (h : pid ∉ roster) :
    flookup (roster.foldl (cleanupStep cfg) m).players pid = flookup m.players pid := by
  induction roster generalizing m with
  | nil => rfl
  | cons r rest ih =>
    rw [List.foldl_cons]
    have hne : pid ≠ r := fun hc => h (hc ▸ List.mem_cons_self r rest)
    rw [ih (cleanupStep cfg m r) (fun hc => h (List.mem_cons_of_mem r hc))]
    exact (cleanupStep_spec cfg m r).2.2.2.2 pid hne

theorem cleanup_fold_lookup (cfg : Config) (roster : List Nat) (m : Manager)
    (pid : Nat) (p : Player) (hnd : roster.Nodup) (hmem : pid ∈ roster)
    (hp : flookup m.players pid = some p) :
    flookup (roster.foldl (cleanupStep cfg) m).players pid =
      if p.alive then some { p with gameid := none } else none := by
  induction roster generalizing m with
  | nil => simp at hmem
  | cons r rest ih =>
    rw [List.foldl_cons]
    rcases List.mem_cons.mp hmem with hpr | hpr
    · subst hpr
      have hnotin : pid ∉ rest := (List.nodup_cons.mp hnd).1
      rw [cleanup_fold_notmem cfg rest _ pid hnotin]
      have hstep := (cleanupStep_spec cfg m pid).2.2.2.1
      rw [hp] at hstep
      exact hstep
    · have hne : pid ≠ r := by
        intro hc
        subst hc
        exact (List.nodup_cons.mp hnd).1 hpr
      have hstep := (cleanupStep_spec cfg m r).2.2.2.2 pid hne
      exact ih (cleanupStep cfg m r) (List.nodup_cons.mp hnd).2 hpr (hstep.trans hp)

theorem cleanup_fold_components (cfg : Config) (roster : List Nat) (m : Manager) :
    (roster.foldl (cleanupStep cfg) m).games = m.games ∧
    (roster.foldl (cleanupStep cfg) m).running = m.running ∧
    (roster.foldl (cleanupStep cfg) m).gameid = m.gameid := by
  induction roster generalizing m with
  | nil => exact ⟨rfl, rfl, rfl⟩
  | cons r rest ih =>
    rw [List.foldl_cons]
    obtain ⟨h1, h2, h3⟩ := ih (cleanupStep cfg m r)
    obtain ⟨g1, g2, g3, -, -⟩ := cleanupStep_spec cfg m r
    exact ⟨h1.trans g1, h2.trans g2, h3.trans g3⟩

theorem game_cleanup_games (cfg : Config) (gid : Nat) (roster : List Nat)
    (m : Manager) :
    (Manager.game_cleanup cfg gid roster m).games = ferase m.games gid ∧
    (Manager.game_cleanup cfg gid roster m).running = m.running := by
  obtain ⟨h1, h2, -⟩ := cleanup_fold_components cfg roster m
  exact ⟨by simp only [Manager.game_cleanup]; rw [h1],
         by simp only [Manager.game_cleanup]; exact h2⟩

/-- C4: when a session's tick loop exits for any reason, cleanup clears every
participant's session id, completes the deferred removal of every
participant whose `alive` flag is false, so that the registry's disconnect
path subsequently fails with `NotRegistered` for them, and removes the
session from the session table; a participant that was present in the
registry when cleanup began (as a mid-session disconnect guarantees, since it
only marks `alive := false`) is removed by the cleanup itself, not before. -/
theorem game_handler_cleanup (cfg : Config) (gid : Nat) (roster : List Nat)
    (outs : List TickOutcome) (m m' : Manager) (msgs : List (Nat × Msg))
    (hh : Manager.game_handler cfg gid roster outs m = (m', msgs))
    (hnd : roster.Nodup) :
    flookup m'.games gid = none ∧
    (∀ pid p, pid ∈ roster → flookup m.players pid = some p →
      (p.alive = false → flookup m'.players pid = none ∧
        Manager.disconnect cfg m' pid = .error .NotRegistered) ∧
      (p.alive = true → flookup m'.players pid = some { p with gameid := none })) := by
  have hm' : m' = Manager.game_cleanup cfg gid roster m := by
    unfold Manager.game_handler at hh
    exact ((Prod.mk.injEq _ _ _ _).mp hh).1.symm
  have hpl : m'.players = (roster.foldl (cleanupStep cfg) m).players := by
    rw [hm']
    rfl
  refine ⟨?_, ?_⟩
  · rw [hm']
    unfold Manager.game_cleanup
    exact flookup_ferase_self _ gid
  · intro pid p hmem hp
    have hlook := cleanup_fold_lookup cfg roster m pid p hnd hmem hp
    constructor
    · intro hdead
      rw [hdead] at hlook
      simp only [Bool.false_eq_true, if_false] at hlook
      have hnone : flookup m'.players pid = none := by rw [hpl, hlook]
      exact ⟨hnone, disconnect_not_registered cfg m' pid hnone⟩
    · intro halive
      rw [halive] at hlook
      simp only [if_true] at hlook
      rw [hpl, hlook, halive]

/-- C4 witness: after a fault in the concrete two-player session, the
disconnected participant 2 is gone from the registry and participant 1 has no
session id. -/
theorem game_handler_cleanup_witness :
    flookup (Manager.game_handler cfg0 1 [1, 2]
      [TickOutcome.fault "boom"] mInGame).1.games 1 = none ∧
    (∀ pid p, pid ∈ [1, 2] → flookup mInGame.players pid = some p →
      (p.alive = false →
        flookup (Manager.game_handler cfg0 1 [1, 2]
          [TickOutcome.fault "boom"] mInGame).1.players pid = none ∧
        Manager.disconnect cfg0 (Manager.game_handler cfg0 1 [1, 2]
          [TickOutcome.fault "boom"] mInGame).1 pid = .error .NotRegistered) ∧
      (p.alive = true →
        flookup (Manager.game_handler cfg0 1 [1, 2]
          [TickOutcome.fault "boom"] mInGame).1.players pid =
          some { p with gameid := none })) :=
  game_handler_cleanup cfg0 1 [1, 2] [TickOutcome.fault "boom"] mInGame
    (Manager.game_handler cfg0 1 [1, 2] [TickOutcome.fault "boom"] mInGame).1
    (Manager.game_handler cfg0 1 [1, 2] [TickOutcome.fault "boom"] mInGame).2
    rfl (by decide)

/-! ### Shutdown -/

theorem disconnect_stopped_shape (cfg : Config) (m : Manager) (cid : Nat) (p : Player)
    (hrun : m.running = false) (hp : flookup m.players cid = some p) :
    ∃ m2, Manager.disconnect cfg m cid = .ok m2 ∧
      m2.players = ferase m.players cid ∧ m2.games = m.games ∧
      m2.running = false := by
  refine ⟨_, disconnect_delete_stopped cfg m cid p hp hrun, rfl, rfl, hrun⟩

theorem players_fold_empty (cfg : Config) (todo : List Nat) (m : Manager)
    (hrun : m.running = false)
    (hsub : ∀ k, k ∈ m.players.map Prod.fst → k ∈ todo) :
    (todo.foldl (kickStep cfg) m).players = [] ∧
    (todo.foldl (kickStep cfg) m).games = m.games ∧
    (todo.foldl (kickStep cfg) m).running = false := by
  induction todo generalizing m with
  | nil =>
    refine ⟨eq_nil_of_keys_empty m.players (fun k hk => ?_), rfl, hrun⟩
    simpa using hsub k hk
  | cons t rest ih =>
    rw [List.foldl_cons]
    cases h0 : flookup m.players t with
    | some p =>
      obtain ⟨m2, hdis, hmp, hmg, hmr⟩ := disconnect_stopped_shape cfg m t p hrun h0
      have hstep : kickStep cfg m t = m2 := by
        unfold kickStep
        rw [hdis]
      rw [hstep]
      obtain ⟨ih1, ih2, ih3⟩ := ih m2 hmr (fun k hk => by
        rw [hmp] at hk
        obtain ⟨hk1, hk2⟩ := keys_ferase_subset m.players t k hk
        rcases List.mem_cons.mp (hsub k hk1) with h | h
        · exact absurd h hk2
        · exact h)
      exact ⟨ih1, ih2.trans hmg, ih3⟩
    | none =>
      have hstep : kickStep cfg m t = m := by
        unfold kickStep
        rw [disconnect_not_registered cfg m t h0]
      rw [hstep]
      exact ih m hrun (fun k hk => by
        rcases List.mem_cons.mp (hsub k hk) with h | h
        · subst h
          obtain ⟨v, hv⟩ := flookup_isSome_of_mem_keys m.players k hk
          rw [hv] at h0
          exact absurd h0 (by simp)
        · exact h)

theorem games_fold_empty (cfg : Config) (todo : List Nat) (m : Manager)
    (hsub : ∀ k, k ∈ m.games.map Prod.fst → k ∈ todo) :
    (todo.foldl (joinStep cfg) m).games = [] ∧
    (todo.foldl (joinStep cfg) m).running = m.running := by
  induction todo generalizing m with
  | nil =>
    refine ⟨eq_nil_of_keys_empty m.games (fun k hk => ?_), rfl⟩
    simpa using hsub k hk
  | cons t rest ih =>
    rw [List.foldl_cons]
    cases h0 : flookup m.games t with
    | some ge =>
      have hstep : joinStep cfg m t = Manager.game_cleanup cfg t ge.roster m := by
        unfold joinStep
        rw [h0]
      rw [hstep]
      obtain ⟨hg, hr⟩ := game_cleanup_games cfg t ge.roster m
      obtain ⟨ih1, ih2⟩ := ih (Manager.game_cleanup cfg t ge.roster m) (fun k hk => by
        rw [hg] at hk
        obtain ⟨hk1, hk2⟩ := keys_ferase_subset m.games t k hk
        rcases List.mem_cons.mp (hsub k hk1) with h | h
        · exact absurd h hk2
        · exact h)
      exact ⟨ih1, ih2.trans hr⟩
    | none =>
      have hstep : joinStep cfg m t = m := by
        unfold joinStep
        rw [h0]
      rw [hstep]
      exact ih m (fun k hk => by
        rcases List.mem_cons.mp (hsub k hk) with h | h
        · subst h
          obtain ⟨v, hv⟩ := flookup_isSome_of_mem_keys m.games k hk
          rw [hv] at h0
          exact absurd h0 (by simp)
        · exact h)

/-- C5: `safe_stop` clears the run flag, joins every registered session's
worker (whose loop exits at once under the cleared flag, so the join waits
out its guaranteed cleanup), then force-disconnects every still-registered
player; a raising join or disconnect is caught by the surrounding handler
rather than aborting the sweep, and afterwards the session table and the
player registry are both empty. -/
theorem safe_stop_drains (cfg : Config) (m : Manager) :
    (Manager.safe_stop cfg m).running = false ∧
    (Manager.safe_stop cfg m).games = [] ∧
    (Manager.safe_stop cfg m).players = [] := by
  have hss : Manager.safe_stop cfg m =
      ((((m.games.map Prod.fst).foldl (joinStep cfg)
          { m with running := false }).players.map Prod.fst).foldl (kickStep cfg)
        ((m.games.map Prod.fst).foldl (joinStep cfg) { m with running := false })) := rfl
  obtain ⟨hg1, hg2⟩ := games_fold_empty cfg (m.games.map Prod.fst)
    { m with running := false } (fun k hk => hk)
  obtain ⟨hp1, hp2, hp3⟩ := players_fold_empty cfg
    (((m.games.map Prod.fst).foldl (joinStep cfg)
      { m with running := false }).players.map Prod.fst)
    ((m.games.map Prod.fst).foldl (joinStep cfg) { m with running := false })
    (hg2.trans rfl) (fun k hk => hk)
  rw [hss]
  exact ⟨hp3, hp2.trans hg1, hp1⟩

/-! ### The queue/session exclusivity invariant -/

theorem inv_connect (m : Manager) (cid sock : Nat) (bs : List Nat) (tok : String)
    (m' : Manager) (hinv : StateInv m)
    (h : Manager.connect m cid sock bs = .ok (tok, m')) : StateInv m' := by
  unfold Manager.connect at h
  by_cases hrun : m.running = true
  · rw [if_pos hrun] at h
    cases hl : flookup m.players cid <;> rw [hl] at h
    · simp at h
      obtain ⟨-, hm⟩ := h
      intro cid' p' hp'
      rw [← hm] at hp'
      rw [flookup_append_single] at hp'
      cases h0 : flookup m.players cid' <;> rw [h0] at hp'
      · by_cases hc : cid = cid'
        · rw [if_pos hc] at hp'
          simp at hp'
          rw [← hp']
          exact Or.inl rfl
        · rw [if_neg hc] at hp'
          simp at hp'
      · simp at hp'
        rw [← hp']
        exact hinv cid' _ h0
    · simp at h
  · rw [if_neg hrun] at h
    simp at h

theorem inv_disconnect (cfg : Config) (m : Manager) (cid : Nat) (m' : Manager)
    (hinv : StateInv m) (h : Manager.disconnect cfg m cid = .ok m') : StateInv m' := by
  cases h0 : flookup m.players cid with
  | none =>
    rw [disconnect_not_registered cfg m cid h0] at h
    simp at h
  | some p =>
    cases hg : p.gameid with
    | none =>
      rw [disconnect_delete cfg m cid p h0 hg] at h
      simp at h
      intro cid' p' hp'
      rw [← h] at hp'
      by_cases hc : cid' = cid
      · subst hc
        rw [flookup_ferase_self] at hp'
        simp at hp'
      · rw [flookup_ferase_ne _ _ _ hc] at hp'
        exact hinv cid' p' hp'
    | some gid =>
      by_cases hrun : m.running = true
      · rw [disconnect_kill cfg m cid p gid h0 hg hrun] at h
        simp at h
        intro cid' p' hp'
        rw [← h] at hp'
        by_cases hc : cid' = cid
        · subst hc
          rw [flookup_fupdate_self, h0] at hp'
          simp at hp'
          rw [← hp']
          exact hinv cid' p h0
        · rw [flookup_fupdate_ne _ _ _ _ hc] at hp'
          exact hinv cid' p' hp'
      · rw [disconnect_delete_stopped cfg m cid p h0 (by simpa using hrun)] at h
        simp at h
        intro cid' p' hp'
        rw [← h] at hp'
        by_cases hc : cid' = cid
        · subst hc
          rw [flookup_ferase_self] at hp'
          simp at hp'
        · rw [flookup_ferase_ne _ _ _ hc] at hp'
          exact hinv cid' p' hp'

theorem inv_send (cfg : Config) (m : Manager) (cid : Nat) (ev : String) (m' : Manager)
    (hinv : StateInv m) (h : Manager.send_event cfg m cid ev = .ok m') : StateInv m' := by
  have hpl : m'.players = m.players := by
    unfold Manager.send_event at h
    cases h0 : flookup m.players cid <;> simp only [h0] at h
    · simp at h
    case some p =>
      cases hg : p.gameid <;> simp only [hg] at h
      · simp at h
      case some gid =>
        cases hge : flookup m.games gid <;> simp only [hge] at h
        · simp at h
        case some ge =>
          by_cases hev : ev ∈ ge.game.events
          · rw [if_pos hev] at h
            simp at h
            rw [← h]
          · rw [if_neg hev] at h
            simp at h
  intro cid' p' hp'
  rw [hpl] at hp'
  exact hinv cid' p' hp'

theorem inv_start_game (cfg : Config) (m : Manager) (q : String) (hinv : StateInv m) :
    StateInv (Manager.start_game cfg m q).1 := by
  intro cid' p' hp'
  have hpl : (Manager.start_game cfg m q).1.players =
      (((flookup m.queues q).getD []).take cfg.PLAYERS_PER_GAME).foldl
        (fun pl pid => fupdate pl pid
          (fun p0 => { p0 with queue := none, gameid := some m.gameid })) m.players := by
    simp only [Manager.start_game, start_fold_components]
  rw [hpl, foldl_fupdate_lookup (((flookup m.queues q).getD []).take cfg.PLAYERS_PER_GAME)
    (fun p0 => { p0 with queue := none, gameid := some m.gameid })
    (fun v => rfl) m.players cid'] at hp'
  by_cases hmem : cid' ∈ ((flookup m.queues q).getD []).take cfg.PLAYERS_PER_GAME
  · rw [if_pos hmem] at hp'
    cases h0 : flookup m.players cid' <;> rw [h0] at hp'
    · simp at hp'
    · simp at hp'
      rw [← hp']
      exact Or.inl rfl
  · rw [if_neg hmem] at hp'
    exact hinv cid' p' hp'

theorem join_queue_ok_shape (cfg : Config) (m : Manager) (cid : Nat) (q : String)
    (m' : Manager) (msgs : List (Nat × Msg))
    (h : Manager.join_queue cfg m cid q = .ok (m', msgs)) :
    ∃ p, flookup m.players cid = some p ∧ p.gameid = none ∧
      (m'.players = fupdate m.players cid (fun pl => { pl with queue := some q }) ∨
       ∃ m4 : Manager, m4.players = fupdate m.players cid
           (fun pl => { pl with queue := some q }) ∧
         m' = (Manager.start_game cfg m4 q).1) := by
  unfold Manager.join_queue at h
  by_cases hrun : m.running = true
  case neg =>
    rw [if_neg hrun] at h
    simp at h
  rw [if_pos hrun] at h
  by_cases hq : q ∈ cfg.GAMES
  case neg =>
    rw [if_neg hq] at h
    simp at h
  rw [if_pos hq] at h
  cases h0 : flookup m.players cid <;> simp only [h0] at h
  · simp at h
  rename_i p
  cases hg : p.gameid <;> simp only [hg] at h
  on_goal 2 => simp at h
  refine ⟨p, rfl, hg, ?_⟩
  cases hpq : p.queue with
  | none =>
    simp only [hpq] at h
    cases hq3 : flookup m.queues q <;> simp only [hq3] at h <;> split at h <;>
      simp only [Except.ok.injEq, Prod.mk.injEq] at h
    · exact Or.inr ⟨_, rfl, (congrArg Prod.fst h).symm⟩
    · obtain ⟨h1, -⟩ := h
      exact Or.inl (by rw [← h1])
    · exact Or.inr ⟨_, rfl, (congrArg Prod.fst h).symm⟩
    · obtain ⟨h1, -⟩ := h
      exact Or.inl (by rw [← h1])
  | some q0 =>
    simp only [hpq] at h
    cases hq3 : flookup (fupdate m.queues q0 (fun l => removeFirst l cid)) q <;>
      simp only [hq3] at h <;> split at h <;>
      simp only [Except.ok.injEq, Prod.mk.injEq] at h
    · exact Or.inr ⟨_, rfl, (congrArg Prod.fst h).symm⟩
    · obtain ⟨h1, -⟩ := h
      exact Or.inl (by rw [← h1])
    · exact Or.inr ⟨_, rfl, (congrArg Prod.fst h).symm⟩
    · obtain ⟨h1, -⟩ := h
      exact Or.inl (by rw [← h1])

theorem inv_join (cfg : Config) (m : Manager) (cid : Nat) (q : String) (m' : Manager)
    (msgs : List (Nat × Msg)) (hinv : StateInv m)
    (h : Manager.join_queue cfg m cid q = .ok (m', msgs)) : StateInv m' := by
  obtain ⟨p, hp, hg, hshape | ⟨m4, hm4, hm'⟩⟩ := join_queue_ok_shape cfg m cid q m' msgs h
  · intro cid' p' hp'
    rw [hshape] at hp'
    by_cases hc : cid' = cid
    · subst hc
      rw [flookup_fupdate_self, hp] at hp'
      simp at hp'
      right
      rw [← hp']
      exact hg
    · rw [flookup_fupdate_ne _ _ _ _ hc] at hp'
      exact hinv cid' p' hp'
  · rw [hm']
    apply inv_start_game
    intro cid' p' hp'
    rw [hm4] at hp'
    by_cases hc : cid' = cid
    · subst hc
      rw [flookup_fupdate_self, hp] at hp'
      simp at hp'
      right
      rw [← hp']
      exact hg
    · rw [flookup_fupdate_ne _ _ _ _ hc] at hp'
      exact hinv cid' p' hp'

theorem inv_cleanupStep (cfg : Config) (acc : Manager) (pid : Nat)
    (hinv : StateInv acc) : StateInv (cleanupStep cfg acc pid) := by
  intro cid' p' hp'
  by_cases hc : cid' = pid
  · subst hc
    rw [(cleanupStep_spec cfg acc cid').2.2.2.1] at hp'
    cases h0 : flookup acc.players cid' <;> simp only [h0] at hp'
    · simp at hp'
    · split at hp'
      · simp at hp'
        right
        rw [← hp']
      · simp at hp'
  · rw [(cleanupStep_spec cfg acc pid).2.2.2.2 cid' hc] at hp'
    exact hinv cid' p' hp'

theorem inv_game_cleanup (cfg : Config) (gid : Nat) (roster : List Nat) (m : Manager)
    (hinv : StateInv m) : StateInv (Manager.game_cleanup cfg gid roster m) := by
  have hfold : StateInv (roster.foldl (cleanupStep cfg) m) :=
    foldl_preserves StateInv (cleanupStep cfg) roster m
      (fun acc b hb => inv_cleanupStep cfg acc b hb) hinv
  intro cid' p' hp'
  exact hfold cid' p' hp'

theorem inv_handler (cfg : Config) (gid : Nat) (roster : List Nat)
    (outs : List TickOutcome) (m m' : Manager) (msgs : List (Nat × Msg))
    (hinv : StateInv m)
    (h : Manager.game_handler cfg gid roster outs m = (m', msgs)) : StateInv m' := by
  have hm' : m' = Manager.game_cleanup cfg gid roster m := by
    unfold Manager.game_handler at h
    exact ((Prod.mk.injEq _ _ _ _).mp h).1.symm
  rw [hm']
  exact inv_game_cleanup cfg gid roster m hinv

theorem inv_safe_stop (cfg : Config) (m : Manager) (hinv : StateInv m) :
    StateInv (Manager.safe_stop cfg m) := by
  have h1 : StateInv ({ m with running := false } : Manager) :=
    fun cid p hp => hinv cid p hp
  have h2 : StateInv ((({ m with running := false } : Manager).games.map Prod.fst).foldl
      (joinStep cfg) { m with running := false }) :=
    foldl_preserves StateInv (joinStep cfg) _ _ (fun acc b hb => by
      unfold joinStep
      cases hl : flookup acc.games b with
      | some ge => exact inv_game_cleanup cfg b ge.roster acc hb
      | none => exact hb) h1
  exact foldl_preserves StateInv (kickStep cfg) _ _ (fun acc b hb => by
      unfold kickStep
      cases hd : Manager.disconnect cfg acc b with
      | ok m2 => exact inv_disconnect cfg acc b m2 hb hd
      | error e => exact hb) h2

theorem reachable_inv (cfg : Config) (m : Manager) (h : Reachable cfg m) :
    StateInv m := by
  induction h with
  | start =>
    intro cid0 p0 hp0
    simp [Manager.start] at hp0
  | connect_ok hc hok ih => exact inv_connect _ _ _ _ _ _ ih hok
  | disconnect_ok hc hok ih => exact inv_disconnect _ _ _ _ ih hok
  | join_ok hc hok ih => exact inv_join _ _ _ _ _ _ ih hok
  | send_ok hc hok ih => exact inv_send _ _ _ _ _ ih hok
  | handler hc hok ih => exact inv_handler _ _ _ _ _ _ _ ih hok
  | stop hc ih => exact inv_safe_stop _ _ ih

/-- C2: in every state reachable from the initial manager by any sequence of
operations (connect, disconnect, join_queue with its draining start_game,
send_event, a session handler run with its cleanup, safe_stop), no registered
player has both its queue field and its session-id field set. -/
theorem reachable_queue_session_exclusive (cfg : Config) (m : Manager)
    (h : Reachable cfg m) (cid : Nat) (p : Player)
    (hp : flookup m.players cid = some p) :
    p.queue = none ∨ p.gameid = none :=
  reachable_inv cfg m h cid p hp

/-- C2 witness: the invariant at the concrete state reached by one connect. -/
theorem reachable_queue_session_exclusive_witness :
    ({ socket := 10, alive := true, gameid := none, queue := none,
       token := "01020304" } : Player).queue = none ∨
    ({ socket := 10, alive := true, gameid := none, queue := none,
       token := "01020304" } : Player).gameid = none :=
  reachable_queue_session_exclusive cfg0
    { players := [(1, { socket := 10, alive := true, gameid := none,
                        queue := none, token := "01020304" })],
      games := [], gameid := 1, queues := [], running := true }
    (@Reachable.connect_ok cfg0 Manager.start 1 10 [1, 2, 3, 4] "01020304"
      { players := [(1, { socket := 10, alive := true, gameid := none,
                          queue := none, token := "01020304" })],
        games := [], gameid := 1, queues := [], running := true }
      Reachable.start (by decide)) 1
    { socket := 10, alive := true, gameid := none, queue := none, token := "01020304" }
    (by decide)

/-- C10 witness: the sole queued player rejoining "duel" keeps the queue at
length one with itself at the tail, and no session starts. -/
theorem join_queue_rejoin_witness :
    ∃ m', Manager.join_queue cfg0 mQueued 1 "duel" = .ok (m', []) ∧
      flookup m'.queues "duel" = some (removeFirst [1] 1 ++ [1]) ∧
      (removeFirst [1] 1 ++ [1]).length = ([1] : List Nat).length ∧
      m'.games = mQueued.games ∧ m'.gameid = mQueued.gameid ∧
      m'.players = fupdate mQueued.players 1
        (fun pl => { pl with queue := some "duel" }) :=
  join_queue_rejoin cfg0 mQueued 1 "duel"
    { socket := 10, alive := true, gameid := none, queue := some "duel", token := "aa" }
    [1] (by decide) (by decide) (by decide) (by decide) (by decide) (by decide)
    (by decide) (by decide)
